import Mathlib

/-!
Shallow embedding of the golimiter admission-control engine
(`golimiter.go`, `common/common.go`) and proofs about it.

Go strings are embedded as lists of characters (`Ident`), Go maps as
total functions into `Option`, machine integers and `time.Duration`
values as `Int`, and fallible or crashing code as `Except Crash`.
-/

namespace Golimiter

/-- A client identifier / file name / raw file contents: a Go string as a
list of characters. -/
abbrev Ident := List Char

/-- Modelled from the spec: the token-bucket primitive (`rate.Limiter`
from `golang.org/x/time/rate`) is an external capability that the spec
excludes from the core ("The core only requires a capability:
`TryConsume(n) -> bool` ... parameterized by a refill rate and a maximum
burst size").  At a single instant (no refill time passing) it is a
counter of remaining units together with its configured rate and burst. -/
structure Bucket where
  tokens : Int
  rate : Int
  burst : Int
deriving DecidableEq, Repr

/-- `Allow()` = `TryConsume(1)`: succeeds and removes one unit iff at
least one unit remains. -/
def Bucket.allow (b : Bucket) : Bool × Bucket :=
  if 1 ≤ b.tokens then (true, { b with tokens := b.tokens - 1 }) else (false, b)

/-- `rate.NewLimiter(r, b)`: a fresh bucket starts full. -/
def newBucket (r : Int) (b : Int) : Bucket :=
  { tokens := b, rate := r, burst := b }

/-- `visitor` struct of `golimiter.go`: the default limiter, one limiter
per configured tier, the last-seen time and the (unused) level field. -/
structure Visitor where
  limiter : Bucket
  limiters : List Bucket
  lastSeen : Int
  level : Int
deriving DecidableEq, Repr

/-- `params` struct of `golimiter.go`. -/
structure Params where
  rate : Int
  burst : Int
deriving DecidableEq, Repr

/-- The `Whitelist` / `Blacklist` anonymous struct of `Limiter`.
`quitChan` is the quit channel: `none` is a nil channel, `some ()` an
allocated one. -/
structure ListCfg where
  On : Bool
  Filename : Ident
  UpdateFreq : Int
  quitChan : Option Unit
  list : List Ident

/-- The `Cleanup` anonymous struct of `Limiter`. -/
structure CleanupCfg where
  Off : Bool
  Thres : Int
  Freq : Int
  quitChan : Option Unit

/-- The `Limiter` struct of `golimiter.go`.  The visitors map is a total
function into `Option Visitor`. -/
structure Limiter where
  Rate : Int
  Burst : Int
  params : List Params
  triggers : List Bucket
  Whitelist : ListCfg
  Blacklist : ListCfg
  Cleanup : CleanupCfg
  visitors : Ident → Option Visitor
  useDefault : Bool
  state : Nat

/-- Ways a request-path call can fail to return: blocking forever on a
mutex already held by the same goroutine, dereferencing a nil pointer,
or indexing a slice out of range. -/
inductive Crash where
  | deadlock
  | nilDeref
  | indexOutOfRange
deriving DecidableEq, Repr

/-- The per-request verdict of the middleware: pass the request through,
401 from a list check, or 429 from the rate check. -/
inductive Verdict where
  | admitted
  | rejectPolicy
  | rejectRate
deriving DecidableEq, Repr

/-- `common.InArray`: whether `val` occurs in `array`, and the index of
the first occurrence (the named return `index` stays `0` when absent). -/
def InArray (array : List Ident) (val : Ident) : Bool × Nat :=
  match array with
  | [] => (false, 0)
  | v :: rest =>
    if val = v then (true, 0)
    else
      let p := InArray rest val
      if p.1 then (true, p.2 + 1) else (false, 0)

/-- `strings.Split(s, "\x5cn")`: split on every newline, keeping empty
groups; always returns at least one group. -/
def splitNl : List Char → List Ident
  | [] => [[]]
  | c :: rest =>
    if c = '\n' then [] :: splitNl rest
    else
      match splitNl rest with
      | [] => [[c]]
      | g :: gs => (c :: g) :: gs

/-- `common.ReadList`: read the file at `loc` (the environment `env`
maps a file name to its contents, `none` being a read error) and split
its contents on newlines, with no filtering. -/
def ReadList (env : Ident → Option Ident) (loc : Ident) : Option (List Ident) :=
  (env loc).map splitNl

/-- Update one key of the visitors map (Go map assignment). -/
def mapSet (m : Ident → Option Visitor) (k : Ident) (v : Visitor) :
    Ident → Option Visitor :=
  fun x => if x = k then some v else m x

/-- Acquiring the engine's `sync.Mutex`: a non-reentrant Go mutex
acquired by a goroutine that already holds it blocks forever. -/
def mutexLock (held : Bool) : Except Crash Unit :=
  if held then .error .deadlock else .ok ()

/-! ## `updateState` -/

/-- The loop body of `Limiter.updateState`: `for i, t := range l.triggers`,
calling `t.Allow()` on every trigger and, whenever it returns `false`,
overwriting `state := i` and `useDefault := false`.  Returns the
consumed triggers together with the final `(state, useDefault)` pair. -/
def updateStateLoop : List Bucket → Nat → Nat → Bool → List Bucket × (Nat × Bool)
  | [], _, state, ud => ([], (state, ud))
  | t :: ts, i, state, ud =>
    let p := Bucket.allow t
    let state2 := if p.1 = false then i else state
    let ud2 := if p.1 = false then false else ud
    let r := updateStateLoop ts (i + 1) state2 ud2
    (p.2 :: r.1, r.2)

/-- `Limiter.updateState`: under the lock, set `useDefault := true` and
run the trigger scan, writing the results back into the limiter. -/
def updateStateRun (l : Limiter) : Limiter :=
  let r := updateStateLoop l.triggers 0 l.state true
  { l with triggers := r.1, state := r.2.1, useDefault := r.2.2 }

/-! ## `allow` -/

/-- Go slice index assignment `xs[i] = b`: out of range is a panic
(`none`).  The `levels` slice of `Limiter.allow` is declared as
`var levels []bool`, a nil slice of length `0`. -/
def sliceSet (xs : List Bool) (i : Nat) (b : Bool) : Option (List Bool) :=
  if i < xs.length then some (xs.set i b) else none

/-- The loop body of `Limiter.allow`:
`for i, l := range v.limiters { levels[i] = l.Allow() }`.
Each step consumes from the bucket first (Go evaluates the right-hand
side first) and then writes into `levels`, panicking if `i` is out of
range for `levels`. -/
def allowLoop : List Bucket → List Bool → Nat → Except Crash (List Bool × List Bucket)
  | [], levels, _ => .ok (levels, [])
  | b :: bs, levels, i =>
    let p := Bucket.allow b
    match sliceSet levels i p.1 with
    | none => .error .indexOutOfRange
    | some levels2 =>
      match allowLoop bs levels2 (i + 1) with
      | .error e => .error e
      | .ok r => .ok (r.1, p.2 :: r.2)

/-- `Limiter.allow`: consume the default limiter, run the tier-limiter
loop into the nil `levels` slice, then return the default outcome when
`useDefault` holds and `levels[l.state]` otherwise (an out-of-range read
is a panic). -/
def allow (l : Limiter) (v : Visitor) : Except Crash (Bool × Visitor) :=
  let pd := Bucket.allow v.limiter
  match allowLoop v.limiters [] 0 with
  | .error e => .error e
  | .ok r =>
    let v2 := { v with limiter := pd.2, limiters := r.2 }
    if l.useDefault then .ok (pd.1, v2)
    else
      match r.1.get? l.state with
      | some b => .ok (b, v2)
      | none => .error .indexOutOfRange

/-! ## `getVisitor` / `addVisitor` -/

/-- `Limiter.addVisitor`, called with `lockHeld` recording whether the
calling goroutine already holds the engine mutex.  The body first runs
`l.Lock()` — a deadlock when the caller (as `getVisitor` does) already
holds the lock — and its first statement past the lock,
`v.limiter = rate.NewLimiter(l.Rate, l.Burst)`, writes through the nil
named-return pointer `v *visitor`, a nil-dereference panic.  No later
statement of the body is reachable. -/
def addVisitor (lockHeld : Bool) : Except Crash (Visitor × Limiter) :=
  match mutexLock lockHeld with
  | .error e => .error e
  | .ok _ => .error .nilDeref

/-- `Limiter.getVisitor`: under the engine mutex (acquired here; the
callers `LimitHTTPHandler` / `LimitNetConn` do not hold it), look `ip`
up in the visitors map; on a miss call `addVisitor` (with the lock still
held), otherwise refresh `lastSeen` and return the visitor. -/
def getVisitor (l : Limiter) (ip : Ident) (now : Int) : Except Crash (Visitor × Limiter) :=
  match l.visitors ip with
  | none => addVisitor true
  | some v =>
    let v2 := { v with lastSeen := now }
    .ok (v2, { l with visitors := mapSet l.visitors ip v2 })

/-! ## Request path -/

/-- The tail of the request path shared by `LimitHTTPHandler` and
`LimitNetConn` once the list checks have passed: fetch or create the
visitor, run `allow` against the current state, write the mutated
visitor back (it is held by pointer in the map), and turn the boolean
into a verdict (429 on `false`). -/
def visitorRateCheck (l : Limiter) (ip : Ident) (now : Int) :
    Except Crash (Verdict × Limiter) :=
  match getVisitor l ip now with
  | .error e => .error e
  | .ok (v, l2) =>
    match allow l2 v with
    | .error e => .error e
    | .ok (okb, v2) =>
      let l3 := { l2 with visitors := mapSet l2.visitors ip v2 }
      .ok (if okb then Verdict.admitted else Verdict.rejectRate, l3)

/-- `Limiter.LimitHTTPHandler` (one request): first `l.updateState()`,
then the whitelist check (absent ⇒ 401), then the blacklist check
(present ⇒ 401), then the rate check.  `ip` is `r.RemoteAddr`, `now` the
current time observed by `getVisitor`. -/
def LimitHTTPHandler (l0 : Limiter) (ip : Ident) (now : Int) :
    Except Crash (Verdict × Limiter) :=
  let l := updateStateRun l0
  if l.Whitelist.On && !(InArray l.Whitelist.list ip).1 then
    .ok (Verdict.rejectPolicy, l)
  else if l.Blacklist.On && (InArray l.Blacklist.list ip).1 then
    .ok (Verdict.rejectPolicy, l)
  else
    visitorRateCheck l ip now

/-! ## Cleanup sweep -/

/-- `time.Minute` in nanoseconds (`time.Duration` arithmetic). -/
def minuteNs : Int := 60000000000

/-- One pass of the loop body of `Limiter.cleanupVisitors`: under the
lock, delete every visitor whose `lastSeen` is strictly more than
`Cleanup.Thres` minutes before `now`.  (The surrounding `for`/`select`
/`time.Sleep` scheduling is not modelled; this is the sweep itself.) -/
def cleanupSweep (l : Limiter) (now : Int) : Limiter :=
  { l with
    visitors := fun ip =>
      match l.visitors ip with
      | some v =>
        if now - v.lastSeen > l.Cleanup.Thres * minuteNs then none else some v
      | none => none }

/-! ## List maintenance -/

/-- One pass of the loop body of `Limiter.updateWhitelist`: re-read the
whitelist file and, only on success, replace the snapshot. -/
def updateWhitelistOnce (env : Ident → Option Ident) (l : Limiter) : Limiter :=
  match ReadList env l.Whitelist.Filename with
  | none => l
  | some newList => { l with Whitelist := { l.Whitelist with list := newList } }

/-- `Limiter.AddToBlacklist`, acting on the blacklist slice (the rest of
the limiter is untouched): append `ip` iff it is not already present. -/
def AddToBlacklist (list : List Ident) (ip : Ident) : List Ident :=
  let p := InArray list ip
  if !p.1 then list ++ [ip] else list

/-- `Limiter.RemoveFromBlackList`, acting on the blacklist slice:
`append(list[:i], list[i+1:]...)` at the first index `i` where `ip`
occurs, when it occurs. -/
def RemoveFromBlackList (list : List Ident) (ip : Ident) : List Ident :=
  let p := InArray list ip
  if p.1 then list.take p.2 ++ list.drop (p.2 + 1) else list

/-! ## `Init` -/

/-- The errors `Limiter.Init` can return, by source:
the two literal `errors.New` messages for unset file paths, and the
propagated `common.ReadList` error for an unreadable file. -/
inductive InitError where
  | whitelistPathUnset
  | whitelistReadFailed
  | blacklistPathUnset
  | blacklistReadFailed
deriving DecidableEq, Repr

/-- An early exit from an `Init` phase: an error return, or blocking
forever (a send on a nil channel never proceeds). -/
inductive InitStop where
  | err (e : InitError)
  | hang
deriving DecidableEq, Repr

/-- The outcome of `Limiter.Init`. -/
inductive InitResult where
  | ok (l : Limiter)
  | err (e : InitError)
  | hang

/-- The whitelist block of `Init`: when `Whitelist.On`, fail on an empty
file path or an unreadable file; otherwise default `UpdateFreq` to `3`
when unset and start `updateWhitelist` with the nil channel `qWL`
(declared `var qWL chan bool` and never allocated), storing that nil
channel in `quitChan`. -/
def initWhitelistPhase (env : Ident → Option Ident) (l : Limiter) :
    Except InitStop Limiter :=
  if l.Whitelist.On then
    if l.Whitelist.Filename = [] then .error (.err .whitelistPathUnset)
    else
      match ReadList env l.Whitelist.Filename with
      | none => .error (.err .whitelistReadFailed)
      | some _ =>
        .ok { l with
          Whitelist := { l.Whitelist with
            UpdateFreq := if l.Whitelist.UpdateFreq = 0 then 3 else l.Whitelist.UpdateFreq,
            quitChan := none } }
  else .ok l

/-- The failure path of the blacklist block of `Init`: when the
whitelist is on, the code sets `Whitelist.On = false` and sends `true`
on `Whitelist.quitChan` before returning the error — a send that blocks
forever when that channel is nil. -/
def abortBlacklist (l : Limiter) (e : InitError) : InitStop :=
  if l.Whitelist.On then
    match l.Whitelist.quitChan with
    | none => .hang
    | some _ => .err e
  else .err e

/-- The blacklist block of `Init`: mirror image of the whitelist block,
except that on failure it first tries to shut the whitelist loop down
via `abortBlacklist`. -/
def initBlacklistPhase (env : Ident → Option Ident) (l : Limiter) :
    Except InitStop Limiter :=
  if l.Blacklist.On then
    if l.Blacklist.Filename = [] then .error (abortBlacklist l .blacklistPathUnset)
    else
      match ReadList env l.Blacklist.Filename with
      | none => .error (abortBlacklist l .blacklistReadFailed)
      | some _ =>
        .ok { l with
          Blacklist := { l.Blacklist with
            UpdateFreq := if l.Blacklist.UpdateFreq = 0 then 3 else l.Blacklist.UpdateFreq,
            quitChan := none } }
  else .ok l

/-- The tail of `Init`: default the cleanup parameters when cleanup is
on (starting `cleanupVisitors` with the nil channel `qCU`), default
`Rate` to `1` and `Burst` to `5` when unset, and set `useDefault`.
(The `visitors == nil` map initialization is invisible in the total-map
model.) -/
def initTail (l : Limiter) : Limiter :=
  let l1 :=
    if !l.Cleanup.Off then
      { l with Cleanup := { l.Cleanup with
          Freq := if l.Cleanup.Freq = 0 then 3 else l.Cleanup.Freq,
          Thres := if l.Cleanup.Thres = 0 then 3 else l.Cleanup.Thres,
          quitChan := none } }
    else l
  let l2 := if l1.Rate = 0 then { l1 with Rate := 1 } else l1
  let l3 := if l2.Burst = 0 then { l2 with Burst := 5 } else l2
  { l3 with useDefault := true }

/-- `Limiter.Init`: the whitelist block, then the blacklist block, then
the cleanup/defaults tail. -/
def Init (l : Limiter) (env : Ident → Option Ident) : InitResult :=
  match initWhitelistPhase env l with
  | .error (.err e) => .err e
  | .error .hang => .hang
  | .ok l1 =>
    match initBlacklistPhase env l1 with
    | .error (.err e) => .err e
    | .error .hang => .hang
    | .ok l2 => .ok (initTail l2)

/-! ## Lemmas about `InArray` -/

theorem InArray_of_not_mem (l : List Ident) (x : Ident) (h : x ∉ l) :
    InArray l x = (false, 0) := by
  induction l with
  | nil => rfl
  | cons v rest ih =>
    have hne : x ≠ v := fun hx => h (hx ▸ List.mem_cons_self v rest)
    have hrest : x ∉ rest := fun hx => h (List.mem_cons_of_mem v hx)
    simp [InArray, hne, ih hrest]

theorem InArray_append_self (l : List Ident) (x : Ident) (h : x ∉ l) :
    InArray (l ++ [x]) x = (true, l.length) := by
  induction l with
  | nil => simp [InArray]
  | cons v rest ih =>
    have hne : x ≠ v := fun hx => h (hx ▸ List.mem_cons_self v rest)
    have hrest : x ∉ rest := fun hx => h (List.mem_cons_of_mem v hx)
    simp [InArray, hne, ih hrest]

theorem InArray_fst_eq_true_iff (l : List Ident) (x : Ident) :
    (InArray l x).1 = true ↔ x ∈ l := by
  induction l with
  | nil => simp [InArray]
  | cons v rest ih =>
    by_cases hv : x = v
    · simp [InArray, hv]
    · by_cases hm : x ∈ rest
      · have h1 : (InArray rest x).1 = true := ih.mpr hm
        simp [InArray, hv, h1, hm]
      · have h1 : (InArray rest x).1 = false := by
          cases hh : (InArray rest x).1
          · rfl
          · exact absurd (ih.mp hh) hm
        simp [InArray, hv, h1, hm]

end Golimiter

namespace Golimiter

/-! ## Concrete inputs used by witnesses and counterexamples -/

/-- A trigger/tier bucket with five units left. -/
def bFull : Bucket := { tokens := 5, rate := 10, burst := 5 }

/-- An exhausted bucket. -/
def bEmpty : Bucket := { tokens := 0, rate := 10, burst := 5 }

/-- A visitor holding one tier bucket (one configured tier). -/
def exVisitor : Visitor :=
  { limiter := newBucket 1 5, limiters := [newBucket 1 3], lastSeen := 0, level := 0 }

/-- A disabled list configuration. -/
def offList : ListCfg :=
  { On := false, Filename := [], UpdateFreq := 0, quitChan := none, list := [] }

/-- Default cleanup configuration. -/
def exCleanup : CleanupCfg := { Off := false, Thres := 3, Freq := 3, quitChan := none }

/-- A limiter with two triggers (the second exhausted), both lists off,
an empty registry. -/
def exLim : Limiter :=
  { Rate := 1, Burst := 5, params := [], triggers := [bFull, bEmpty],
    Whitelist := offList, Blacklist := offList, Cleanup := exCleanup,
    visitors := fun _ => none, useDefault := true, state := 0 }

/-! ## C1 -/

/-- C1: the claim says the rate-check step consumes one unit from every
bucket of the visitor's state and decides by the active tier's bucket.
The code instead panics for every visitor that has at least one tier
bucket: the loop writes `levels[i]` into the nil slice
`var levels []bool`, an index-out-of-range panic on its first
iteration. -/
theorem allow_panics_on_tiered_visitor (l : Limiter) (v : Visitor)
    (h : v.limiters ≠ []) : allow l v = .error .indexOutOfRange := by
  match hv : v.limiters with
  | [] => exact absurd hv h
  | b :: bs => simp [allow, hv, allowLoop, sliceSet]

/-- C1 witness: the panic at a concrete visitor with one configured
tier. -/
theorem allow_panics_on_tiered_visitor_witness :
    allow exLim exVisitor = .error .indexOutOfRange :=
  allow_panics_on_tiered_visitor exLim exVisitor (by decide)

/-! ## C3 -/

/-- C3: the claim says the get-or-create lookup creates and stores a new
visitor state on a miss.  The code instead never completes a miss:
`getVisitor` holds the engine mutex and calls `addVisitor`, whose first
statement `l.Lock()` re-acquires the same non-reentrant mutex — a
self-deadlock (and past it, the body would write through the nil
named-return pointer `v *visitor`). -/
theorem getVisitor_miss_deadlocks (l : Limiter) (ip : Ident) (now : Int)
    (h : l.visitors ip = none) : getVisitor l ip now = .error .deadlock := by
  simp [getVisitor, h, addVisitor, mutexLock]

/-- C3 witness: the deadlock at a concrete first-contact lookup. -/
theorem getVisitor_miss_deadlocks_witness :
    getVisitor exLim [] 0 = .error .deadlock :=
  getVisitor_miss_deadlocks exLim [] 0 rfl

/-! ## C5 -/

/-- C5: the claim says that with a valid enabled whitelist and a
misconfigured enabled blacklist, `Init` stops the whitelist loop through
a pre-allocated cancellation signal and returns an error.  The code
instead started the whitelist loop with the nil channel `qWL` (declared
`var qWL chan bool`, never allocated, and stored in `quitChan` only
after the `go` statement); the blacklist failure path then sends on that
nil channel, which blocks forever, so `Init` hangs instead of
returning. -/
theorem init_blacklist_misconfig_hangs (l : Limiter) (env : Ident → Option Ident)
    (raw : Ident)
    (h1 : l.Whitelist.On = true) (h2 : l.Whitelist.Filename ≠ [])
    (h3 : env l.Whitelist.Filename = some raw)
    (h4 : l.Blacklist.On = true)
    (h5 : l.Blacklist.Filename = [] ∨ env l.Blacklist.Filename = none) :
    Init l env = .hang := by
  rcases h5 with h5 | h5 <;>
    simp [Init, initWhitelistPhase, initBlacklistPhase, abortBlacklist,
      ReadList, h1, h2, h3, h4, h5]

/-- C5 witness: a concrete limiter with a readable whitelist file and a
blacklist enabled with an empty file path makes `Init` hang. -/
theorem init_blacklist_misconfig_hangs_witness :
    Init { exLim with
        Whitelist := { On := true, Filename := ['w'], UpdateFreq := 0,
                       quitChan := none, list := [] },
        Blacklist := { offList with On := true } }
      (fun loc => if loc = ['w'] then some ['a'] else none) = .hang := by
  exact init_blacklist_misconfig_hangs _ _ ['a'] rfl (by decide) (by decide) rfl
    (Or.inl rfl)

/-! ## C7 -/

/-- C7: one sweep pass removes a visitor iff its `lastSeen` is strictly
older than the configured threshold at sweep time, keeps every visitor
seen within the threshold with its state unchanged, and creates no
entries. -/
theorem cleanupSweep_removes_iff_idle (l : Limiter) (now : Int) (ip : Ident) :
    (∀ v, l.visitors ip = some v →
        ((now - v.lastSeen > l.Cleanup.Thres * minuteNs →
            (cleanupSweep l now).visitors ip = none)
          ∧ (now - v.lastSeen ≤ l.Cleanup.Thres * minuteNs →
            (cleanupSweep l now).visitors ip = some v)))
    ∧ (l.visitors ip = none → (cleanupSweep l now).visitors ip = none) := by
  constructor
  · intro v hv
    constructor
    · intro hgt
      simp [cleanupSweep, hv, hgt]
    · intro hle
      simp [cleanupSweep, hv, not_lt.mpr hle]
  · intro hnone
    simp [cleanupSweep, hnone]

/-- C7 witness: a concrete idle visitor is removed by the sweep. -/
theorem cleanupSweep_removes_iff_idle_witness :
    (cleanupSweep { exLim with visitors := fun ip => if ip = ['v'] then some exVisitor else none }
        (4 * minuteNs)).visitors ['v'] = none := by
  have h := (cleanupSweep_removes_iff_idle
      { exLim with visitors := fun ip => if ip = ['v'] then some exVisitor else none }
      (4 * minuteNs) ['v']).1 exVisitor (by simp)
  exact h.1 (by decide)

/-! ## C9 -/

/-- C9: adding an absent identifier to the blacklist and then removing
it restores the original list — the add appends the single new
occurrence at the end, and the remove deletes the first occurrence
found. -/
theorem blacklist_add_remove_roundtrip (list : List Ident) (ip : Ident)
    (h : ip ∉ list) :
    RemoveFromBlackList (AddToBlacklist list ip) ip = list := by
  have hadd : AddToBlacklist list ip = list ++ [ip] := by
    simp [AddToBlacklist, InArray_of_not_mem list ip h]
  rw [hadd]
  have hfind : InArray (list ++ [ip]) ip = (true, list.length) :=
    InArray_append_self list ip h
  simp only [RemoveFromBlackList, hfind]
  simp [List.take_left]

/-- C9 witness: the round trip at a concrete two-element blacklist. -/
theorem blacklist_add_remove_roundtrip_witness :
    RemoveFromBlackList (AddToBlacklist [['a'], ['b']] ['c']) ['c'] = [['a'], ['b']] :=
  blacklist_add_remove_roundtrip [['a'], ['b']] ['c'] (by decide)

/-! ## Characterizing the `updateState` scan -/

/-- The index of the last trigger in the list whose `Allow()` fails
(`none` when every trigger yields a unit). -/
def lastFail : List Bucket → Option Nat
  | [] => none
  | b :: bs =>
    match lastFail bs with
    | some k => some (k + 1)
    | none => if (Bucket.allow b).1 = false then some 0 else none

/-- Whether the trigger at index `j` fails to yield a unit. -/
def failsAt (ts : List Bucket) (j : Nat) : Bool :=
  match ts.get? j with
  | some b => !(Bucket.allow b).1
  | none => false

theorem updateStateLoop_eq (ts : List Bucket) (i s : Nat) (u : Bool) :
    updateStateLoop ts i s u =
      (ts.map (fun b => (Bucket.allow b).2),
        match lastFail ts with
        | some k => (i + k, false)
        | none => (s, u)) := by
  induction ts generalizing i s u with
  | nil => rfl
  | cons t rest ih =>
    cases hb : (Bucket.allow t).1 <;>
      cases hl : lastFail rest <;>
        simp [updateStateLoop, lastFail, ih, hb, hl] <;> omega

theorem lastFail_none_iff (ts : List Bucket) :
    lastFail ts = none ↔ ∀ j, failsAt ts j = false := by
  induction ts with
  | nil =>
    simp only [lastFail, true_iff]
    intro j
    simp [failsAt]
  | cons t rest ih =>
    constructor
    · intro h j
      cases hl : lastFail rest with
      | some k => rw [lastFail, hl] at h; exact absurd h (by simp)
      | none =>
        rw [lastFail, hl] at h
        by_cases hb : (Bucket.allow t).1 = false
        · simp [hb] at h
        · have hbt : (Bucket.allow t).1 = true := by
            cases hh : (Bucket.allow t).1
            · exact absurd hh hb
            · rfl
          cases j with
          | zero => simp [failsAt, hbt]
          | succ j =>
            have := (ih.mp hl) j
            simpa [failsAt] using this
    · intro h
      have hbt : (Bucket.allow t).1 = true := by
        have h0 := h 0
        simp only [failsAt, List.get?] at h0
        cases hh : (Bucket.allow t).1
        · rw [hh] at h0; simp at h0
        · rfl
      have hrest : lastFail rest = none := by
        apply ih.mpr
        intro j
        have := h (j + 1)
        simpa [failsAt] using this
      rw [lastFail, hrest]
      simp [hbt]

theorem lastFail_spec (ts : List Bucket) (k : Nat) (h : lastFail ts = some k) :
    failsAt ts k = true ∧ ∀ j, failsAt ts j = true → j ≤ k := by
  induction ts generalizing k with
  | nil => simp [lastFail] at h
  | cons t rest ih =>
    cases hl : lastFail rest with
    | some k0 =>
      rw [lastFail, hl] at h
      have hk : k = k0 + 1 := by
        have := Option.some.inj h
        omega
      subst hk
      obtain ⟨h1, h2⟩ := ih k0 hl
      constructor
      · simpa [failsAt] using h1
      · intro j hj
        cases j with
        | zero => omega
        | succ j =>
          have := h2 j (by simpa [failsAt] using hj)
          omega
    | none =>
      rw [lastFail, hl] at h
      by_cases hb : (Bucket.allow t).1 = false
      · rw [if_pos hb] at h
        have hk : k = 0 := (Option.some.inj h).symm
        subst hk
        constructor
        · simp [failsAt, hb]
        · intro j hj
          cases j with
          | zero => exact Nat.le_refl 0
          | succ j =>
            have := (lastFail_none_iff rest).mp hl j
            rw [show failsAt (t :: rest) (j + 1) = failsAt rest j from by
              simp [failsAt]] at hj
            rw [this] at hj
            exact absurd hj (by simp)
      · rw [if_neg hb] at h
        exact absurd h (by simp)

/-! ## C2 -/

/-- C2: after one `updateState` scan, if some trigger failed then
`useDefault` is cleared and `state` is the highest index among the
triggers that failed in the scan (indices being unique, ties are broken
by order trivially); if every trigger yielded a unit, the engine is in
the default state. -/
theorem updateState_highest_failed_tier (l : Limiter) :
    ((∃ j, failsAt l.triggers j = true) →
        (updateStateRun l).useDefault = false
        ∧ failsAt l.triggers (updateStateRun l).state = true
        ∧ ∀ j, failsAt l.triggers j = true → j ≤ (updateStateRun l).state)
    ∧ ((∀ j, failsAt l.triggers j = false) →
        (updateStateRun l).useDefault = true) := by
  constructor
  · rintro ⟨j, hj⟩
    cases hl : lastFail l.triggers with
    | none =>
      have := (lastFail_none_iff _).mp hl j
      rw [this] at hj
      exact absurd hj (by simp)
    | some k =>
      have hspec := lastFail_spec _ k hl
      have hstate : (updateStateRun l).state = k := by
        simp [updateStateRun, updateStateLoop_eq, hl]
      have hud : (updateStateRun l).useDefault = false := by
        simp [updateStateRun, updateStateLoop_eq, hl]
      rw [hstate, hud]
      exact ⟨rfl, hspec.1, hspec.2⟩
  · intro hall
    have hl : lastFail l.triggers = none := (lastFail_none_iff _).mpr hall
    simp [updateStateRun, updateStateLoop_eq, hl]

/-- C2 witness: with triggers `[full, exhausted]`, the scan leaves the
default state and activates the failing tier, index `1`. -/
theorem updateState_highest_failed_tier_witness :
    (updateStateRun exLim).useDefault = false
    ∧ failsAt exLim.triggers (updateStateRun exLim).state = true := by
  have h := (updateState_highest_failed_tier exLim).1 ⟨1, by decide⟩
  exact ⟨h.1, h.2.1⟩

/-! ## Lemmas about the request path -/

theorem updateStateRun_Whitelist (l : Limiter) :
    (updateStateRun l).Whitelist = l.Whitelist := rfl

theorem updateStateRun_Blacklist (l : Limiter) :
    (updateStateRun l).Blacklist = l.Blacklist := rfl

/-- The scan drains one unit from each trigger that has one (each
trigger bucket is replaced by the result of its own `Allow()`). -/
theorem updateStateRun_triggers (l : Limiter) :
    (updateStateRun l).triggers = l.triggers.map (fun b => (Bucket.allow b).2) := by
  simp [updateStateRun, updateStateLoop_eq]

/-- The rate-check tail never produces a policy rejection. -/
theorem visitorRateCheck_ne_rejectPolicy (l : Limiter) (ip : Ident) (now : Int)
    (l' : Limiter) :
    visitorRateCheck l ip now ≠ .ok (Verdict.rejectPolicy, l') := by
  intro h
  unfold visitorRateCheck at h
  split at h
  · simp at h
  · split at h
    · simp at h
    · split at h <;> simp at h

theorem limitHandler_wl_reject (l : Limiter) (ip : Ident) (now : Int)
    (hon : l.Whitelist.On = true) (hmem : ip ∉ l.Whitelist.list) :
    LimitHTTPHandler l ip now = .ok (Verdict.rejectPolicy, updateStateRun l) := by
  have h1 : (InArray l.Whitelist.list ip).1 = false := by
    cases hh : (InArray l.Whitelist.list ip).1
    · rfl
    · exact absurd ((InArray_fst_eq_true_iff _ _).mp hh) hmem
  simp [LimitHTTPHandler, updateStateRun_Whitelist, hon, h1]

theorem limitHandler_wl_pass (l : Limiter) (ip : Ident) (now : Int)
    (hon : l.Whitelist.On = true) (hbl : l.Blacklist.On = false)
    (hmem : ip ∈ l.Whitelist.list) :
    LimitHTTPHandler l ip now = visitorRateCheck (updateStateRun l) ip now := by
  have h1 : (InArray l.Whitelist.list ip).1 = true :=
    (InArray_fst_eq_true_iff _ _).mpr hmem
  simp [LimitHTTPHandler, updateStateRun_Whitelist, updateStateRun_Blacklist,
    hon, hbl, h1]

theorem limitHandler_bl_reject (l : Limiter) (ip : Ident) (now : Int)
    (hwl : l.Whitelist.On = false) (hon : l.Blacklist.On = true)
    (hmem : ip ∈ l.Blacklist.list) :
    LimitHTTPHandler l ip now = .ok (Verdict.rejectPolicy, updateStateRun l) := by
  have h1 : (InArray l.Blacklist.list ip).1 = true :=
    (InArray_fst_eq_true_iff _ _).mpr hmem
  simp [LimitHTTPHandler, updateStateRun_Whitelist, updateStateRun_Blacklist,
    hwl, hon, h1]

theorem limitHandler_bl_pass (l : Limiter) (ip : Ident) (now : Int)
    (hwl : l.Whitelist.On = false) (hon : l.Blacklist.On = true)
    (hmem : ip ∉ l.Blacklist.list) :
    LimitHTTPHandler l ip now = visitorRateCheck (updateStateRun l) ip now := by
  have h1 : (InArray l.Blacklist.list ip).1 = false := by
    cases hh : (InArray l.Blacklist.list ip).1
    · rfl
    · exact absurd ((InArray_fst_eq_true_iff _ _).mp hh) hmem
  simp [LimitHTTPHandler, updateStateRun_Whitelist, updateStateRun_Blacklist,
    hwl, hon, h1]

/-! ## C4 -/

/-- A limiter with one live trigger, the blacklist enabled and holding
`"b"`, used as the policy-rejection counterexample input. -/
def cexLim : Limiter :=
  { exLim with
    triggers := [bFull],
    Blacklist := { offList with On := true, list := [['b']] } }

/-- Projection of an admission outcome to the verdict and the trigger
buckets. -/
def handlerVerdictTriggers (r : Except Crash (Verdict × Limiter)) :
    Option (Verdict × List Bucket) :=
  match r with
  | .ok p => some (p.1, p.2.triggers)
  | .error _ => none

/-- C4 counterexample: a request from the blacklisted address `"b"` is
rejected by the policy check, yet the trigger budget went from `5` to
`4` units — the load-state refresh ran before the policy checks. -/
theorem policy_reject_drains_triggers_cex :
    handlerVerdictTriggers (LimitHTTPHandler cexLim ['b'] 0)
      = some (Verdict.rejectPolicy, [{ tokens := 4, rate := 10, burst := 5 }])
    ∧ cexLim.triggers = [{ tokens := 5, rate := 10, burst := 5 }] := by
  constructor <;> rfl

/-- C4 amended: the load-state refresh runs before the policy checks on
every request, so a request rejected by the allow-list or deny-list
check leaves the trigger budgets in the state produced by that refresh —
each trigger bucket has had one `Allow()` consumption attempted on it —
rather than unchanged. -/
theorem refresh_precedes_policy_checks (l : Limiter) (ip : Ident) (now : Int)
    (l' : Limiter)
    (h : LimitHTTPHandler l ip now = .ok (Verdict.rejectPolicy, l')) :
    l'.triggers = l.triggers.map (fun b => (Bucket.allow b).2) := by
  simp only [LimitHTTPHandler] at h
  by_cases h1 : ((updateStateRun l).Whitelist.On
      && !(InArray (updateStateRun l).Whitelist.list ip).1) = true
  · rw [if_pos h1] at h
    simp only [Except.ok.injEq, Prod.mk.injEq] at h
    rw [← h.2]
    exact updateStateRun_triggers l
  · rw [if_neg h1] at h
    by_cases h2 : ((updateStateRun l).Blacklist.On
        && (InArray (updateStateRun l).Blacklist.list ip).1) = true
    · rw [if_pos h2] at h
      simp only [Except.ok.injEq, Prod.mk.injEq] at h
      rw [← h.2]
      exact updateStateRun_triggers l
    · rw [if_neg h2] at h
      exact absurd h (visitorRateCheck_ne_rejectPolicy _ _ _ _)

/-- C4 amended witness: the trigger state after the concrete rejected
request of the counterexample. -/
theorem refresh_precedes_policy_checks_witness :
    (updateStateRun cexLim).triggers
      = cexLim.triggers.map (fun b => (Bucket.allow b).2) :=
  refresh_precedes_policy_checks cexLim ['b'] 0 (updateStateRun cexLim) rfl

/-! ## C6 -/

/-- C6: under allow-list mode an absent identifier is always a policy
rejection (whatever the buckets hold) and a present identifier falls
through to the rate check; under deny-list mode a present identifier is
always a policy rejection and an absent one falls through to the rate
check. -/
theorem accessList_policy_gating (l : Limiter) (ip : Ident) (now : Int) :
    (l.Whitelist.On = true → l.Blacklist.On = false →
        ((ip ∉ l.Whitelist.list →
            LimitHTTPHandler l ip now = .ok (Verdict.rejectPolicy, updateStateRun l))
          ∧ (ip ∈ l.Whitelist.list →
            LimitHTTPHandler l ip now = visitorRateCheck (updateStateRun l) ip now)))
    ∧ (l.Whitelist.On = false → l.Blacklist.On = true →
        ((ip ∈ l.Blacklist.list →
            LimitHTTPHandler l ip now = .ok (Verdict.rejectPolicy, updateStateRun l))
          ∧ (ip ∉ l.Blacklist.list →
            LimitHTTPHandler l ip now = visitorRateCheck (updateStateRun l) ip now))) := by
  constructor
  · intro hon hbl
    exact ⟨limitHandler_wl_reject l ip now hon,
      limitHandler_wl_pass l ip now hon hbl⟩
  · intro hwl hon
    exact ⟨limitHandler_bl_reject l ip now hwl hon,
      limitHandler_bl_pass l ip now hwl hon⟩

/-- A limiter in allow-list mode whose snapshot holds only `"a"`. -/
def wlLim : Limiter :=
  { exLim with Whitelist := { offList with On := true, list := [['a']] } }

/-- C6 witness: at the concrete allow-list limiter, the listed
identifier `"a"` proceeds to the rate check. -/
theorem accessList_policy_gating_witness :
    LimitHTTPHandler wlLim ['a'] 0 = visitorRateCheck (updateStateRun wlLim) ['a'] 0 :=
  ((accessList_policy_gating wlLim ['a'] 0).1 rfl rfl).2 (by decide)

/-! ## Lemmas about `splitNl` -/

theorem splitNl_ne_nil (xs : List Char) : splitNl xs ≠ [] := by
  cases xs with
  | nil => simp [splitNl]
  | cons c rest =>
    simp only [splitNl]
    split
    · simp
    · split <;> simp

theorem splitNl_append_newline (xs : List Char) :
    splitNl (xs ++ ['\n']) = splitNl xs ++ [[]] := by
  induction xs with
  | nil => rfl
  | cons c rest ih =>
    by_cases hc : c = '\n'
    · simp [splitNl, hc, ih]
    · rw [List.cons_append]
      simp only [splitNl, hc, if_neg, ih]
      cases hs : splitNl rest with
      | nil => exact absurd hs (splitNl_ne_nil rest)
      | cons g gs => simp

/-! ## C10 -/

/-- C10: a successful read returns the file's contents split on
newlines with no filtering, hence a never-empty list; an empty file
yields the singleton empty identifier, a file ending in a newline yields
a list containing the empty identifier, the whitelist refresh installs
exactly that list, and an empty extracted identifier is then treated as
present: it passes an allow-list check into the rate check, and is
rejected by a deny-list check. -/
theorem readList_unfiltered (env : Ident → Option Ident) (loc raw : Ident)
    (h : env loc = some raw) :
    ReadList env loc = some (splitNl raw)
    ∧ splitNl raw ≠ []
    ∧ (raw = [] → splitNl raw = [[]])
    ∧ (∀ pre, raw = pre ++ ['\n'] →
        [] ∈ splitNl raw ∧ (InArray (splitNl raw) []).1 = true)
    ∧ (∀ l : Limiter, l.Whitelist.Filename = loc →
        (updateWhitelistOnce env l).Whitelist.list = splitNl raw)
    ∧ (∀ l : Limiter, ∀ now : Int, l.Whitelist.On = true → l.Blacklist.On = false →
        [] ∈ l.Whitelist.list →
        LimitHTTPHandler l [] now = visitorRateCheck (updateStateRun l) [] now)
    ∧ (∀ l : Limiter, ∀ now : Int, l.Whitelist.On = false → l.Blacklist.On = true →
        [] ∈ l.Blacklist.list →
        LimitHTTPHandler l [] now = .ok (Verdict.rejectPolicy, updateStateRun l)) := by
  refine ⟨?_, splitNl_ne_nil raw, ?_, ?_, ?_, ?_, ?_⟩
  · simp [ReadList, h]
  · intro hraw
    subst hraw
    rfl
  · intro pre hpre
    subst hpre
    rw [splitNl_append_newline]
    refine ⟨List.mem_append_right _ (List.mem_singleton_self _), ?_⟩
    exact (InArray_fst_eq_true_iff _ _).mpr
      (List.mem_append_right _ (List.mem_singleton_self _))
  · intro l hf
    simp [updateWhitelistOnce, ReadList, hf, h]
  · intro l now hon hbl hmem
    exact limitHandler_wl_pass l [] now hon hbl hmem
  · intro l now hwl hon hmem
    exact limitHandler_bl_reject l [] now hwl hon hmem

/-- C10 witness: a concrete readable file `"a\x5cn"`. -/
theorem readList_unfiltered_witness :
    ReadList (fun loc => if loc = ['f'] then some ['a', '\n'] else none) ['f']
      = some (splitNl ['a', '\n']) :=
  (readList_unfiltered (fun loc => if loc = ['f'] then some ['a', '\n'] else none)
    ['f'] ['a', '\n'] rfl).1

/-! ## Lemmas about the `Init` phases -/

theorem initWhitelistPhase_ok (env : Ident → Option Ident) (l l1 : Limiter)
    (h : initWhitelistPhase env l = .ok l1) :
    l1.Rate = l.Rate ∧ l1.Burst = l.Burst ∧ l1.Blacklist = l.Blacklist
    ∧ l1.Cleanup = l.Cleanup
    ∧ (l.Whitelist.On = true →
        l1.Whitelist.UpdateFreq =
          (if l.Whitelist.UpdateFreq = 0 then 3 else l.Whitelist.UpdateFreq))
    ∧ (l.Whitelist.On = false → l1.Whitelist = l.Whitelist) := by
  unfold initWhitelistPhase at h
  cases hOn : l.Whitelist.On with
  | false =>
    rw [hOn] at h
    simp only [Bool.false_eq_true, if_false, Except.ok.injEq] at h
    subst h
    simp [hOn]
  | true =>
    rw [hOn] at h
    simp only [if_true, Except.ok.injEq] at h
    split at h
    · exact absurd h (by simp)
    · split at h
      · exact absurd h (by simp)
      · simp only [Except.ok.injEq] at h
        subst h
        simp [hOn]

theorem initBlacklistPhase_ok (env : Ident → Option Ident) (l l1 : Limiter)
    (h : initBlacklistPhase env l = .ok l1) :
    l1.Rate = l.Rate ∧ l1.Burst = l.Burst ∧ l1.Whitelist = l.Whitelist
    ∧ l1.Cleanup = l.Cleanup
    ∧ (l.Blacklist.On = true →
        l1.Blacklist.UpdateFreq =
          (if l.Blacklist.UpdateFreq = 0 then 3 else l.Blacklist.UpdateFreq))
    ∧ (l.Blacklist.On = false → l1.Blacklist = l.Blacklist) := by
  unfold initBlacklistPhase at h
  cases hOn : l.Blacklist.On with
  | false =>
    rw [hOn] at h
    simp only [Bool.false_eq_true, if_false, Except.ok.injEq] at h
    subst h
    simp [hOn]
  | true =>
    rw [hOn] at h
    simp only [if_true, Except.ok.injEq] at h
    split at h
    · exact absurd h (by simp)
    · split at h
      · exact absurd h (by simp)
      · simp only [Except.ok.injEq] at h
        subst h
        simp [hOn]

theorem initTail_proj (l : Limiter) :
    (initTail l).Rate = (if l.Rate = 0 then 1 else l.Rate)
    ∧ (initTail l).Burst = (if l.Burst = 0 then 5 else l.Burst)
    ∧ (initTail l).Whitelist = l.Whitelist
    ∧ (initTail l).Blacklist = l.Blacklist
    ∧ (l.Cleanup.Off = false →
        (initTail l).Cleanup.Freq = (if l.Cleanup.Freq = 0 then 3 else l.Cleanup.Freq)
        ∧ (initTail l).Cleanup.Thres = (if l.Cleanup.Thres = 0 then 3 else l.Cleanup.Thres))
    ∧ (l.Cleanup.Off = true → (initTail l).Cleanup = l.Cleanup) := by
  cases hoff : l.Cleanup.Off <;>
    by_cases hr : l.Rate = 0 <;> by_cases hb : l.Burst = 0 <;>
      simp [initTail, hoff, hr, hb]

/-- A fully-default configuration with both lists off and the cleanup
parameters already set: `Init` succeeds on it and every if-branch of the
claim's defaulting can be inspected on its result. -/
def c8Lim : Limiter := { exLim with Rate := 0, Burst := 0 }

/-- Projection of an `Init` outcome onto the whitelist refresh period. -/
def initWlFreq : InitResult → Option Int
  | .ok l => some l.Whitelist.UpdateFreq
  | _ => none

/-! ## C8 -/

/-- C8 counterexample: `Init` succeeds on a limiter whose whitelist is
off and whose whitelist refresh period is unset (`0`), and leaves that
period at `0` rather than setting it to the recognized default `3`. -/
theorem init_defaults_cex :
    c8Lim.Whitelist.On = false ∧ c8Lim.Whitelist.UpdateFreq = 0
    ∧ initWlFreq (Init c8Lim (fun _ => none)) = some 0
    ∧ (0 : Int) ≠ 3 := by
  refine ⟨rfl, rfl, rfl, by decide⟩

/-- C8 amended: when `Init` succeeds, the default rate (`1`) and burst
(`5`) are applied whenever unset; a list's refresh period is defaulted
to `3` only when that list is enabled, and the sweep period and idle
threshold are defaulted to `3` only when cleanup is enabled; every
parameter the caller set, and every parameter of a disabled feature, is
left unchanged. -/
theorem init_defaults_conditional (l : Limiter) (env : Ident → Option Ident)
    (l' : Limiter) (h : Init l env = .ok l') :
    l'.Rate = (if l.Rate = 0 then 1 else l.Rate)
    ∧ l'.Burst = (if l.Burst = 0 then 5 else l.Burst)
    ∧ (l.Whitelist.On = true →
        l'.Whitelist.UpdateFreq =
          (if l.Whitelist.UpdateFreq = 0 then 3 else l.Whitelist.UpdateFreq))
    ∧ (l.Whitelist.On = false → l'.Whitelist.UpdateFreq = l.Whitelist.UpdateFreq)
    ∧ (l.Blacklist.On = true →
        l'.Blacklist.UpdateFreq =
          (if l.Blacklist.UpdateFreq = 0 then 3 else l.Blacklist.UpdateFreq))
    ∧ (l.Blacklist.On = false → l'.Blacklist.UpdateFreq = l.Blacklist.UpdateFreq)
    ∧ (l.Cleanup.Off = false →
        l'.Cleanup.Freq = (if l.Cleanup.Freq = 0 then 3 else l.Cleanup.Freq)
        ∧ l'.Cleanup.Thres = (if l.Cleanup.Thres = 0 then 3 else l.Cleanup.Thres))
    ∧ (l.Cleanup.Off = true →
        l'.Cleanup.Freq = l.Cleanup.Freq ∧ l'.Cleanup.Thres = l.Cleanup.Thres) := by
  unfold Init at h
  cases hw : initWhitelistPhase env l with
  | error s =>
    rw [hw] at h
    cases s with
    | err e => simp at h
    | hang => simp at h
  | ok l1 =>
    rw [hw] at h
    dsimp only at h
    cases hb : initBlacklistPhase env l1 with
    | error s =>
      rw [hb] at h
      cases s with
      | err e => simp at h
      | hang => simp at h
    | ok l2 =>
      rw [hb] at h
      simp only [InitResult.ok.injEq] at h
      obtain ⟨hwR, hwB, hwBl, hwC, hwFreqOn, hwFreqOff⟩ :=
        initWhitelistPhase_ok env l l1 hw
      obtain ⟨hbR, hbB, hbWl, hbC, hbFreqOn, hbFreqOff⟩ :=
        initBlacklistPhase_ok env l1 l2 hb
      obtain ⟨htR, htB, htWl, htBl, htCOn, htCOff⟩ := initTail_proj l2
      subst h
      refine ⟨?_, ?_, ?_, ?_, ?_, ?_, ?_, ?_⟩
      · rw [htR, hbR, hwR]
      · rw [htB, hbB, hwB]
      · intro hon
        rw [htWl, hbWl]
        exact hwFreqOn hon
      · intro hoff
        rw [htWl, hbWl, hwFreqOff hoff]
      · intro hon
        rw [htBl]
        rw [hwBl] at hbFreqOn
        exact hbFreqOn hon
      · intro hoff
        rw [htBl]
        rw [hwBl] at hbFreqOff
        rw [hbFreqOff hoff]
      · intro hoff
        have hC : l2.Cleanup = l.Cleanup := by rw [hbC, hwC]
        rw [← hC] at hoff
        obtain ⟨hf, ht⟩ := htCOn hoff
        rw [hC] at hf ht
        exact ⟨hf, ht⟩
      · intro hon
        have hC : l2.Cleanup = l.Cleanup := by rw [hbC, hwC]
        rw [← hC] at hon
        have := htCOff hon
        rw [hC] at this
        rw [this]
        exact ⟨rfl, rfl⟩

/-- C8 amended witness: `Init` on the concrete all-default limiter with
unset rate: the resulting rate is the default `1`. -/
theorem init_defaults_conditional_witness :
    (initTail c8Lim).Rate = (if c8Lim.Rate = 0 then 1 else c8Lim.Rate) :=
  (init_defaults_conditional c8Lim (fun _ => none) (initTail c8Lim) rfl).1

end Golimiter
